import Mathlib

/-!
Verification of the JBL MA Series binary protocol codec
(file src/intg_jblav/protocol.py of the uc-intg-jblav integration).

Bytes are modelled as natural numbers; Python byte strings as lists of
naturals.  Python operations that can raise (indexing, construction of a
byte string from out-of-range values) are modelled in the Except monad,
so that the absence of exceptions is a provable statement.  Python slices
never raise and are modelled with List.take and List.drop, which clamp
exactly the way Python slicing does.
-/

namespace JBLProtocol

/-- Command identifiers of the JBLCommand enumeration. -/
def JBLCommand.POWER : Nat := 0x00

def JBLCommand.DISPLAY_DIM : Nat := 0x01

def JBLCommand.SIMULATE_IR : Nat := 0x04

def JBLCommand.VOLUME : Nat := 0x06

def JBLCommand.PARTY_VOLUME : Nat := 0x0A

def JBLCommand.TREBLE_EQ : Nat := 0x0B

def JBLCommand.BASS_EQ : Nat := 0x0C

/-- Outbound start sentinel, a single byte. -/
def CMD_START : Nat := 0x23

/-- Inbound start sentinel, two bytes. -/
def RESP_START : List Nat := [0x02, 0x23]

/-- End sentinel byte. -/
def END_BYTE : Nat := 0x0D

/-- Reserved query sentinel data byte. -/
def REQUEST_DATA : Nat := 0xF0

/-- IR code of the power toggle remote key. -/
def IR_POWER : Nat := 0x010E03

/-- Decoded response dict: keys cmd_id, rsp_code and data of the dict
returned by parse_response. -/
structure Response where
  cmd_id : Nat
  rsp_code : Nat
  data : List Nat
deriving DecidableEq, Repr

/-- Python bytes(l) construction: succeeds exactly when every element is a
valid byte value, otherwise raises ValueError. -/
def bytesE (l : List Nat) : Except String (List Nat) :=
  if ∀ x ∈ l, x < 256 then Except.ok l
  else Except.error ("ValueError: bytes must be in range(0, 256)")

/-- build_command of JBLProtocol: bytes([CMD_START, cmd_id, data_len])
followed by bytes(data) followed by bytes([END]). -/
def build_command (cmd_id : Nat) (data : List Nat) : Except String (List Nat) :=
  match bytesE [CMD_START, cmd_id, data.length] with
  | Except.error e => Except.error e
  | Except.ok command =>
    match bytesE data with
    | Except.error e => Except.error e
    | Except.ok d =>
      match bytesE [END_BYTE] with
      | Except.error e => Except.error e
      | Except.ok tail => Except.ok (command ++ d ++ tail)

/-- parse_response of JBLProtocol, with every Python indexing operation
already known to be in range (the exception-free version below validates
that).  Mirrors the source line by line: minimum length guard of 5, the
two-byte start marker comparison on data[0:2], the end byte comparison on
data[-1], then cmd_id, rsp_code and data_len from offsets 2, 3 and 4, and
the incomplete-data guard len(data) < 5 + data_len + 1 taken only when
data_len > 0. -/
def parse_response (data : List Nat) : Option Response :=
  if data.length < 5 then none
  else if data.take 2 ≠ RESP_START then none
  else if data.getLastD 0 ≠ END_BYTE then none
  else
    let cmd_id := data.getD 2 0
    let rsp_code := data.getD 3 0
    let data_len := data.getD 4 0
    if data_len > 0 then
      if data.length < 5 + data_len + 1 then none
      else some ⟨cmd_id, rsp_code, (data.drop 5).take data_len⟩
    else some ⟨cmd_id, rsp_code, []⟩

/-- Checked element access: data[i] of Python, raising IndexError when the
index is out of range. -/
def pyGet (b : List Nat) (i : Nat) : Except String Nat :=
  match b[i]? with
  | some v => Except.ok v
  | none => Except.error ("IndexError: index out of range")

/-- Checked access to data[-1] of Python: raises IndexError on an empty
byte string. -/
def pyGetLast (b : List Nat) : Except String Nat :=
  match b.getLast? with
  | some v => Except.ok v
  | none => Except.error ("IndexError: index out of range")

/-- parse_response with every Python indexing operation modelled as
fallible, in source evaluation order: the length guard, the slice
comparison data[0:2] (slices never raise), data[-1], data[2], data[3],
data[4], the incomplete-data guard, and the data slice data[5:5+data_len]
(never raises). -/
def parse_responseE (data : List Nat) : Except String (Option Response) :=
  if data.length < 5 then Except.ok none
  else if data.take 2 ≠ RESP_START then Except.ok none
  else
    match pyGetLast data with
    | Except.error e => Except.error e
    | Except.ok last =>
      if last ≠ END_BYTE then Except.ok none
      else
        match pyGet data 2 with
        | Except.error e => Except.error e
        | Except.ok cmd_id =>
          match pyGet data 3 with
          | Except.error e => Except.error e
          | Except.ok rsp_code =>
            match pyGet data 4 with
            | Except.error e => Except.error e
            | Except.ok data_len =>
              if data_len > 0 then
                if data.length < 5 + data_len + 1 then Except.ok none
                else Except.ok (some ⟨cmd_id, rsp_code, (data.drop 5).take data_len⟩)
              else Except.ok (some ⟨cmd_id, rsp_code, []⟩)

/-- cmd_volume_set: clamp the requested volume to the range 0 to 99, then
build a VOLUME frame with the clamped value as the single data byte. -/
def cmd_volume_set (volume : Int) : Except String (List Nat) :=
  let v := max 0 (min 99 volume)
  build_command JBLCommand.VOLUME [v.toNat]

/-- cmd_party_volume_set: same clamp to 0 to 99, PARTY_VOLUME identifier. -/
def cmd_party_volume_set (volume : Int) : Except String (List Nat) :=
  let v := max 0 (min 99 volume)
  build_command JBLCommand.PARTY_VOLUME [v.toNat]

/-- cmd_display_dim_set: clamp the level to the range 0 to 3. -/
def cmd_display_dim_set (level : Int) : Except String (List Nat) :=
  let v := max 0 (min 3 level)
  build_command JBLCommand.DISPLAY_DIM [v.toNat]

/-- cmd_treble_eq_set: shift the signed level by 6, then clamp to the
range 0 to 12 (the clamp is applied after the shift). -/
def cmd_treble_eq_set (level : Int) : Except String (List Nat) :=
  let v := max 0 (min 12 (level + 6))
  build_command JBLCommand.TREBLE_EQ [v.toNat]

/-- cmd_bass_eq_set: same shift and clamp, BASS_EQ identifier. -/
def cmd_bass_eq_set (level : Int) : Except String (List Nat) :=
  let v := max 0 (min 12 (level + 6))
  build_command JBLCommand.BASS_EQ [v.toNat]

/-- cmd_ir_simulate: split the 24-bit IR code into three bytes, most
significant first, and build a SIMULATE_IR frame carrying them. -/
def cmd_ir_simulate (ir_code : Nat) : Except String (List Nat) :=
  let byte1 := (ir_code >>> 16) &&& 0xFF
  let byte2 := (ir_code >>> 8) &&& 0xFF
  let byte3 := ir_code &&& 0xFF
  build_command JBLCommand.SIMULATE_IR [byte1, byte2, byte3]

end JBLProtocol

namespace JBLProtocol

/-! Helper lemmas shared by the claim theorems. -/

/-- Python bytes construction succeeds on any list of valid byte values. -/
theorem bytesE_ok (l : List Nat) (h : ∀ x ∈ l, x < 256) : bytesE l = Except.ok l := by
  rw [bytesE, if_pos h]

/-- The frame built by build_command is the outbound start byte, the
command identifier, the data length, the data and the end byte, whenever
all of them are valid byte values. -/
theorem build_command_ok (cmd_id : Nat) (d : List Nat)
    (hc : cmd_id < 256) (hd : ∀ x ∈ d, x < 256) (hl : d.length ≤ 255) :
    build_command cmd_id d = Except.ok (0x23 :: cmd_id :: d.length :: (d ++ [0x0D])) := by
  rw [build_command]
  rw [bytesE_ok [CMD_START, cmd_id, d.length] (by simp [CMD_START]; omega)]
  dsimp only
  rw [bytesE_ok d hd]
  dsimp only
  rw [bytesE_ok [END_BYTE] (by simp [END_BYTE])]
  dsimp only
  simp [CMD_START, END_BYTE]

/-- Special case of build_command_ok for a single data byte. -/
theorem build_command_singleton (cmd_id x : Nat) (hc : cmd_id < 256) (hx : x < 256) :
    build_command cmd_id [x] = Except.ok [0x23, cmd_id, 1, x, 0x0D] := by
  have := build_command_ok cmd_id [x] hc (by simpa using hx) (by simp)
  simpa using this

/-- Decoding in explicit list form: a list starting with the two-byte
inbound marker, whose tail after offset 4 ends in the end sentinel and is
long enough for the declared data length, decodes successfully. -/
theorem parse_response_cons (x2 x3 x4 : Nat) (rest : List Nat)
    (hend : rest.getLastD x4 = 0x0D)
    (hlen : x4 = 0 ∨ x4 < rest.length) :
    parse_response (0x02 :: 0x23 :: x2 :: x3 :: x4 :: rest) =
      some ⟨x2, x3, rest.take x4⟩ := by
  have h5 : ¬ ((0x02 :: 0x23 :: x2 :: x3 :: x4 :: rest).length < 5) := by
    simp [List.length_cons]
  have hstart : ¬ ((0x02 :: 0x23 :: x2 :: x3 :: x4 :: rest).take 2 ≠ RESP_START) := by
    simp [RESP_START]
  have hendD : ¬ ((0x02 :: 0x23 :: x2 :: x3 :: x4 :: rest).getLastD 0 ≠ END_BYTE) := by
    simp only [List.getLastD_cons, END_BYTE, ne_eq, not_not]
    simpa using hend
  rw [parse_response, if_neg h5, if_neg hstart, if_neg hendD]
  rcases x4 with _ | n
  · simp
  · have hn : n + 1 < rest.length := by
      rcases hlen with h | h
      · exact absurd h (Nat.succ_ne_zero n)
      · exact h
    have hlong : ¬ ((0x02 :: 0x23 :: x2 :: x3 :: (n+1) :: rest).length <
        5 + (0x02 :: 0x23 :: x2 :: x3 :: (n+1) :: rest).getD 4 0 + 1) := by
      simp [List.length_cons]
      omega
    simp only [List.getD_cons_succ, List.getD_cons_zero]
    rw [if_pos (by simp), if_neg (by simpa using hlong)]
    rfl

/-- Decoding succeeds on any byte list that passes the framing checks of
the source: length at least 5, the two-byte inbound start marker, the end
sentinel in last position, and, when the declared data length is nonzero,
at least that many data bytes available. -/
theorem parse_response_valid (b : List Nat) (h5 : 5 ≤ b.length)
    (h0 : b.getD 0 0 = 0x02) (h1 : b.getD 1 0 = 0x23)
    (hend : b.getLastD 0 = 0x0D)
    (hlen : b.getD 4 0 = 0 ∨ 6 + b.getD 4 0 ≤ b.length) :
    parse_response b =
      some ⟨b.getD 2 0, b.getD 3 0, (b.drop 5).take (b.getD 4 0)⟩ := by
  rcases b with _ | ⟨a0, _ | ⟨a1, _ | ⟨a2, _ | ⟨a3, _ | ⟨a4, rest⟩⟩⟩⟩⟩
  · simp at h5
  · simp at h5
  · simp at h5
  · simp at h5
  · simp at h5
  · simp only [List.getD_cons_zero, List.getD_cons_succ] at h0 h1 hlen
    subst h0 h1
    have hend2 : rest.getLastD a4 = 0x0D := by
      simp only [List.getLastD_cons] at hend
      simpa using hend
    have hlen2 : a4 = 0 ∨ a4 < rest.length := by
      rcases hlen with h | h
      · exact Or.inl h
      · right
        simp only [List.length_cons] at h
        omega
    simpa using parse_response_cons a2 a3 a4 rest hend2 hlen2

/-- A successful decode implies that the byte at offset 4 plus 6 does not
exceed the total length: the decoder demands at least, though not exactly,
the declared number of data bytes. -/
theorem parse_response_some_length (b : List Nat) (r : Response)
    (h : parse_response b = some r) : 6 + b.getD 4 0 ≤ b.length := by
  rcases b with _ | ⟨a0, _ | ⟨a1, _ | ⟨a2, _ | ⟨a3, _ | ⟨a4, rest⟩⟩⟩⟩⟩
  · exact absurd h (by simp [parse_response])
  · exact absurd h (by simp [parse_response])
  · exact absurd h (by simp [parse_response])
  · exact absurd h (by simp [parse_response])
  · exact absurd h (by simp [parse_response])
  rcases rest with _ | ⟨a5, rest'⟩
  · -- exactly five bytes: the end check forces the declared length to be
    -- 13, and then the incomplete-data check fails
    simp only [parse_response] at h
    rw [if_neg (by simp)] at h
    by_cases hstart : (([a0, a1, a2, a3, a4] : List Nat).take 2 ≠ RESP_START)
    · rw [if_pos hstart] at h
      exact Option.noConfusion h
    rw [if_neg hstart] at h
    by_cases hend : (([a0, a1, a2, a3, a4] : List Nat).getLastD 0 ≠ END_BYTE)
    · rw [if_pos hend] at h
      exact Option.noConfusion h
    rw [if_neg hend] at h
    have ha4 : a4 = 13 := by
      have := not_not.mp hend
      simpa [END_BYTE] using this
    subst ha4
    simp at h
  · simp only [List.getD_cons_succ, List.getD_cons_zero, List.length_cons]
    by_cases hz : a4 = 0
    · subst hz
      omega
    · simp only [parse_response] at h
      rw [if_neg (by simp)] at h
      by_cases hstart : ((a0 :: a1 :: a2 :: a3 :: a4 :: a5 :: rest').take 2 ≠ RESP_START)
      · rw [if_pos hstart] at h
        exact Option.noConfusion h
      rw [if_neg hstart] at h
      by_cases hend : ((a0 :: a1 :: a2 :: a3 :: a4 :: a5 :: rest').getLastD 0 ≠ END_BYTE)
      · rw [if_pos hend] at h
        exact Option.noConfusion h
      rw [if_neg hend] at h
      simp only [List.getD_cons_succ, List.getD_cons_zero] at h
      rw [if_pos (Nat.pos_of_ne_zero hz)] at h
      by_cases hinc : ((a0 :: a1 :: a2 :: a3 :: a4 :: a5 :: rest').length < 5 + a4 + 1)
      · rw [if_pos hinc] at h
        exact Option.noConfusion h
      · simp only [List.length_cons] at hinc
        omega

end JBLProtocol

namespace JBLProtocol

/-! Claim theorems. -/

/-- C1, counterexample: the claim that a successful decode implies that
the byte at offset 4 equals the length minus 6 is false on the code; the
eight-byte frame below carries a surplus byte before the end marker, its
offset-4 byte is 1 while its length minus 6 is 2, and it still decodes. -/
theorem claim_C1_counterexample :
    parse_response [0x02, 0x23, 0x06, 0x00, 0x01, 0x32, 0xFF, 0x0D] ≠ none ∧
    ¬ (([0x02, 0x23, 0x06, 0x00, 0x01, 0x32, 0xFF, 0x0D] : List Nat).getD 4 0 =
        ([0x02, 0x23, 0x06, 0x00, 0x01, 0x32, 0xFF, 0x0D] : List Nat).length - 6) := by
  decide

/-- C1, amended: a successful decode implies that the length is at least,
though not necessarily exactly, 6 plus the byte at offset 4; the decoder
rejects only frames with fewer data bytes than declared. -/
theorem claim_C1_amended (b : List Nat) (r : Response)
    (h : parse_response b = some r) : 6 + b.getD 4 0 ≤ b.length :=
  parse_response_some_length b r h

/-- C1, witness for the amended claim at a concrete decodable frame. -/
theorem claim_C1_amended_witness :
    6 + ([0x02, 0x23, 0x06, 0x00, 0x01, 0x32, 0x0D] : List Nat).getD 4 0 ≤
      ([0x02, 0x23, 0x06, 0x00, 0x01, 0x32, 0x0D] : List Nat).length :=
  claim_C1_amended [0x02, 0x23, 0x06, 0x00, 0x01, 0x32, 0x0D] ⟨0x06, 0x00, [0x32]⟩
    (by decide)

/-- C2: for every byte sequence, parse_response with all Python indexing
operations modelled as fallible terminates without raising and returns
exactly the decoded response or absence that parse_response computes. -/
theorem claim_C2 (b : List Nat) :
    parse_responseE b = Except.ok (parse_response b) := by
  rcases b with _ | ⟨a0, _ | ⟨a1, _ | ⟨a2, _ | ⟨a3, _ | ⟨a4, rest⟩⟩⟩⟩⟩
  · rfl
  · rfl
  · rfl
  · rfl
  · rfl
  · have h5 : ¬ ((a0 :: a1 :: a2 :: a3 :: a4 :: rest).length < 5) := by
      simp [List.length_cons]
    obtain ⟨v, hv⟩ : ∃ v, (a0 :: a1 :: a2 :: a3 :: a4 :: rest).getLast? = some v := by
      cases hg : (a0 :: a1 :: a2 :: a3 :: a4 :: rest).getLast? with
      | none => exact absurd (List.getLast?_eq_none_iff.mp hg) (by simp)
      | some v => exact ⟨v, rfl⟩
    have hD : (a0 :: a1 :: a2 :: a3 :: a4 :: rest).getLastD 0 = v := by
      rw [List.getLastD_eq_getLast?, hv]
      rfl
    rw [parse_responseE, parse_response, if_neg h5, if_neg h5]
    by_cases hstart : ((a0 :: a1 :: a2 :: a3 :: a4 :: rest).take 2 ≠ RESP_START)
    · rw [if_pos hstart, if_pos hstart]
    rw [if_neg hstart, if_neg hstart]
    rw [show pyGetLast (a0 :: a1 :: a2 :: a3 :: a4 :: rest) = Except.ok v by
      rw [pyGetLast, hv]]
    dsimp only
    rw [hD]
    by_cases hv13 : v ≠ END_BYTE
    · rw [if_pos hv13, if_pos hv13]
    rw [if_neg hv13, if_neg hv13]
    rw [show pyGet (a0 :: a1 :: a2 :: a3 :: a4 :: rest) 2 = Except.ok a2 by simp [pyGet]]
    rw [show pyGet (a0 :: a1 :: a2 :: a3 :: a4 :: rest) 3 = Except.ok a3 by simp [pyGet]]
    rw [show pyGet (a0 :: a1 :: a2 :: a3 :: a4 :: rest) 4 = Except.ok a4 by simp [pyGet]]
    dsimp only
    simp only [List.getD_cons_succ, List.getD_cons_zero]
    by_cases hpos : a4 > 0
    · rw [if_pos hpos, if_pos hpos]
      by_cases hinc : ((a0 :: a1 :: a2 :: a3 :: a4 :: rest).length < 5 + a4 + 1)
      · rw [if_pos hinc, if_pos hinc]
      · rw [if_neg hinc, if_neg hinc]
    · rw [if_neg hpos, if_neg hpos]

/-- C3: the seven-byte status-update frame for command 6 with one data
byte 0x32 decodes to command 6, response code 0 and data 0x32, and the
same frame with the final byte 0x0A instead of 0x0D decodes to absent. -/
theorem claim_C3 :
    parse_response [0x02, 0x23, 0x06, 0x00, 0x01, 0x32, 0x0D] =
      some ⟨0x06, 0x00, [0x32]⟩ ∧
    parse_response [0x02, 0x23, 0x06, 0x00, 0x01, 0x32, 0x0A] = none := by
  decide

/-- C4: every byte sequence of length strictly less than 6 decodes to
absent; in particular no 5 byte input decodes, because its last byte
would have to serve both as the end sentinel and as a declared data
length of 13 that the input is too short to carry. -/
theorem claim_C4 (b : List Nat) (h : b.length < 6) : parse_response b = none := by
  cases hp : parse_response b with
  | none => rfl
  | some r =>
    have := parse_response_some_length b r hp
    omega

/-- C4, witness: a concrete five-byte input with plausible framing still
decodes to absent. -/
theorem claim_C4_witness : parse_response [0x02, 0x23, 0x06, 0x00, 0x0D] = none :=
  claim_C4 [0x02, 0x23, 0x06, 0x00, 0x0D] (by decide)

/-- C5: for every command identifier and list of data bytes that are
valid byte values with at most 255 of them, build_command returns the
start byte, the identifier, the data length, the data and the end byte,
and the frame length is 4 plus the data length. -/
theorem claim_C5 (cmd_id : Nat) (d : List Nat) (hc : cmd_id < 256)
    (hd : ∀ x ∈ d, x < 256) (hl : d.length ≤ 255) :
    build_command cmd_id d = Except.ok (0x23 :: cmd_id :: d.length :: (d ++ [0x0D])) ∧
    (0x23 :: cmd_id :: d.length :: (d ++ [0x0D])).length = 4 + d.length := by
  refine ⟨build_command_ok cmd_id d hc hd hl, ?_⟩
  simp [List.length_cons, List.length_append]
  omega

/-- C5, witness at the volume identifier with a single data byte. -/
theorem claim_C5_witness :
    build_command 0x06 [0x32] = Except.ok [0x23, 0x06, 0x01, 0x32, 0x0D] := by
  have := (claim_C5 0x06 [0x32] (by decide) (by decide) (by decide)).1
  simpa using this

/-- C6: the volume, party-volume, display-dim, treble and bass builders
place the clamped value as the single data byte: volume and party volume
clamp to 0 to 99, display dim to 0 to 3, and the EQ setters add 6 to the
signed level before clamping to 0 to 12, so that treble inputs -6, 0, 6
and 100 encode data bytes 0, 6, 12 and 12. -/
theorem claim_C6 (v L : Int) :
    cmd_volume_set v = Except.ok [0x23, 0x06, 1, (max 0 (min 99 v)).toNat, 0x0D] ∧
    cmd_party_volume_set v = Except.ok [0x23, 0x0A, 1, (max 0 (min 99 v)).toNat, 0x0D] ∧
    cmd_display_dim_set v = Except.ok [0x23, 0x01, 1, (max 0 (min 3 v)).toNat, 0x0D] ∧
    cmd_treble_eq_set L = Except.ok [0x23, 0x0B, 1, (max 0 (min 12 (L + 6))).toNat, 0x0D] ∧
    cmd_bass_eq_set L = Except.ok [0x23, 0x0C, 1, (max 0 (min 12 (L + 6))).toNat, 0x0D] ∧
    cmd_volume_set 150 = cmd_volume_set 99 ∧
    cmd_volume_set (-5) = cmd_volume_set 0 ∧
    cmd_treble_eq_set (-6) = Except.ok [0x23, 0x0B, 1, 0, 0x0D] ∧
    cmd_treble_eq_set 0 = Except.ok [0x23, 0x0B, 1, 6, 0x0D] ∧
    cmd_treble_eq_set 6 = Except.ok [0x23, 0x0B, 1, 12, 0x0D] ∧
    cmd_treble_eq_set 100 = Except.ok [0x23, 0x0B, 1, 12, 0x0D] := by
  refine ⟨?_, ?_, ?_, ?_, ?_, rfl, rfl, rfl, rfl, rfl, rfl⟩
  · rw [cmd_volume_set]
    exact build_command_singleton _ _ (by decide) (by omega)
  · rw [cmd_party_volume_set]
    exact build_command_singleton _ _ (by decide) (by omega)
  · rw [cmd_display_dim_set]
    exact build_command_singleton _ _ (by decide) (by omega)
  · rw [cmd_treble_eq_set]
    exact build_command_singleton _ _ (by decide) (by omega)
  · rw [cmd_bass_eq_set]
    exact build_command_singleton _ _ (by decide) (by omega)

/-- C7: for every 24-bit code, cmd_ir_simulate builds a frame for command
identifier 4 carrying the three bytes of the code, most significant
first. -/
theorem claim_C7 (code : Nat) (_h : code < 2 ^ 24) :
    cmd_ir_simulate code = Except.ok
      [0x23, 0x04, 3, (code >>> 16) &&& 0xFF, (code >>> 8) &&& 0xFF,
        code &&& 0xFF, 0x0D] := by
  rw [cmd_ir_simulate]
  have := build_command_ok JBLCommand.SIMULATE_IR
    [(code >>> 16) &&& 0xFF, (code >>> 8) &&& 0xFF, code &&& 0xFF]
    (by decide)
    (by
      simp only [List.mem_cons, List.not_mem_nil, or_false]
      rintro x (rfl | rfl | rfl) <;>
        exact Nat.lt_of_le_of_lt Nat.and_le_right (by decide))
    (by simp)
  simpa [JBLCommand.SIMULATE_IR] using this

/-- C7, witness: the power IR code 0x010E03 is carried as the data bytes
1, 14, 3 in that order. -/
theorem claim_C7_witness :
    cmd_ir_simulate IR_POWER =
      Except.ok [0x23, 0x04, 3, 0x01, 0x0E, 0x03, 0x0D] :=
  (claim_C7 0x010E03 (by decide)).trans (by rfl)

/-- C8: a frame built by build_command never decodes directly, since its
single start byte 0x23 cannot match the two-byte inbound marker; yet
after re-wrapping the same identifier and data with the inbound marker, a
response code and the data length, decoding succeeds and returns the
identifier and data verbatim. -/
theorem claim_C8 (cmd_id rsp : Nat) (d : List Nat)
    (hc : cmd_id < 256) (_hr : rsp < 256) (hd : ∀ x ∈ d, x < 256)
    (hl : d.length ≤ 255) :
    (∀ f, build_command cmd_id d = Except.ok f → parse_response f = none) ∧
    parse_response (0x02 :: 0x23 :: cmd_id :: rsp :: d.length :: (d ++ [0x0D])) =
      some ⟨cmd_id, rsp, d⟩ := by
  constructor
  · intro f hf
    rw [build_command_ok cmd_id d hc hd hl] at hf
    cases hf
    rcases d with _ | ⟨x, d'⟩
    · rfl
    · rw [parse_response]
      rw [if_neg (by simp [List.length_cons])]
      rw [if_pos (by simp [RESP_START])]
  · have hend : (d ++ [0x0D]).getLastD (d.length) = 0x0D := List.getLastD_concat _ _ _
    have hlen : d.length = 0 ∨ d.length < (d ++ [0x0D]).length := by
      right
      simp
    have := parse_response_cons cmd_id rsp d.length (d ++ [0x0D]) hend hlen
    rw [this]
    rw [List.take_left' rfl]

/-- C8, witness: the volume frame for data byte 0x32 does not decode raw,
and its re-wrapped form decodes back to identifier 6 and data 0x32. -/
theorem claim_C8_witness :
    parse_response [0x23, 0x06, 0x01, 0x32, 0x0D] = none ∧
    parse_response [0x02, 0x23, 0x06, 0x00, 0x01, 0x32, 0x0D] =
      some ⟨0x06, 0x00, [0x32]⟩ := by
  have h := claim_C8 0x06 0x00 [0x32] (by decide) (by decide) (by decide) (by decide)
  exact ⟨h.1 [0x23, 0x06, 0x01, 0x32, 0x0D] rfl, by simpa using h.2⟩

/-- C9: decode success depends only on framing and length; any frame with
the inbound start marker, the end sentinel and a consistent declared
length decodes, and the bytes at offsets 2 and 3 are returned verbatim,
whatever their values. -/
theorem claim_C9 (b : List Nat) (h5 : 5 ≤ b.length)
    (h0 : b.getD 0 0 = 0x02) (h1 : b.getD 1 0 = 0x23)
    (hend : b.getLastD 0 = 0x0D)
    (hlen : b.getD 4 0 = 0 ∨ 6 + b.getD 4 0 ≤ b.length) :
    parse_response b =
      some ⟨b.getD 2 0, b.getD 3 0, (b.drop 5).take (b.getD 4 0)⟩ :=
  parse_response_valid b h5 h0 h1 hend hlen

/-- C9, witness: a frame whose command identifier 0xFF and response code
0xEE belong to no enumerated catalog still decodes, carrying both
verbatim. -/
theorem claim_C9_witness :
    parse_response [0x02, 0x23, 0xFF, 0xEE, 0x00, 0x0D] =
      some ⟨0xFF, 0xEE, []⟩ := by
  have := claim_C9 [0x02, 0x23, 0xFF, 0xEE, 0x00, 0x0D]
    (by decide) (by decide) (by decide) (by decide) (Or.inl (by decide))
  simpa using this

/-- C10: every frame with the inbound marker, the end sentinel and at
least the declared number of data bytes decodes to exactly the declared
number of bytes taken from offset 5, so surplus bytes before the end
marker are ignored rather than rejected. -/
theorem claim_C10 (b : List Nat) (h6 : 6 ≤ b.length)
    (h0 : b.getD 0 0 = 0x02) (h1 : b.getD 1 0 = 0x23)
    (hend : b.getLastD 0 = 0x0D)
    (hlen : 6 + b.getD 4 0 ≤ b.length) :
    parse_response b =
      some ⟨b.getD 2 0, b.getD 3 0, (b.drop 5).take (b.getD 4 0)⟩ ∧
    ((b.drop 5).take (b.getD 4 0)).length = b.getD 4 0 := by
  refine ⟨parse_response_valid b (by omega) h0 h1 hend (Or.inr hlen), ?_⟩
  rw [List.length_take, List.length_drop]
  omega

/-- C10, witness: an eight-byte frame declaring one data byte with one
surplus byte before the end marker decodes to that one data byte. -/
theorem claim_C10_witness :
    parse_response [0x02, 0x23, 0x06, 0x00, 0x01, 0x32, 0xFF, 0x0D] =
      some ⟨0x06, 0x00, [0x32]⟩ := by
  have := claim_C10 [0x02, 0x23, 0x06, 0x00, 0x01, 0x32, 0xFF, 0x0D]
    (by decide) (by decide) (by decide) (by decide) (by decide)
  simpa using this.1

end JBLProtocol
